import Mathlib

/-!
Shallow embedding of the WebGL2 water simulation core (water height-field
GPGPU passes and the caustic / surface compositor passes) over exact real
arithmetic.  The height field is a double-buffered W x H grid of four-channel
float texels `(r, g, b, a) = (height, velocity, normalX, normalZ)`; each GPU
pass reads the whole current buffer and produces the next buffer, which we
model as a pure function from fields to fields.  Texture sampling uses
clamp-to-edge addressing (the render targets keep the three.js default wrap
mode), so a one-texel offset off the edge re-reads the edge texel.
-/

noncomputable section

namespace WaterSim

/-- One texel of the simulation texture: channels `r g b a` hold
height, velocity, normalX and normalZ respectively. -/
structure Texel where
  r : ℝ
  g : ℝ
  b : ℝ
  a : ℝ

theorem Texel.ext_iff' (t u : Texel) :
    t = u ↔ t.r = u.r ∧ t.g = u.g ∧ t.b = u.b ∧ t.a = u.a := by
  constructor
  · intro h; subst h; exact ⟨rfl, rfl, rfl, rfl⟩
  · rcases t with ⟨tr, tg, tb, ta⟩
    rcases u with ⟨ur, ug, ub, ua⟩
    intro h
    obtain ⟨h1, h2, h3, h4⟩ := h
    simp_all

/-- A height field with `W+1` columns and `H+1` rows of texels
(sizes are kept positive by construction). -/
def Field (W H : ℕ) := Fin (W + 1) → Fin (H + 1) → Texel

/-- Clamp-to-edge addressing: an integer texel index is clamped into
`[0, n]`, matching `THREE.ClampToEdgeWrapping` sampling one texel off
the edge of an `n+1`-wide texture. -/
def clampIdx (n : ℕ) (i : ℤ) : Fin (n + 1) :=
  ⟨(min (max i 0) (n : ℤ)).toNat, by
    have h1 : min (max i 0) (n : ℤ) ≤ (n : ℤ) := min_le_right _ _
    have h2 : (0 : ℤ) ≤ min (max i 0) (n : ℤ) :=
      le_min (le_max_right i 0) (Int.ofNat_nonneg n)
    omega⟩

/-- The all-zero field: height, velocity and both normal channels zero. -/
def zeroField (W H : ℕ) : Field W H := fun _ _ => ⟨0, 0, 0, 0⟩

/-- Normalized texture coordinate of texel `i` of an `n+1`-wide axis:
the texel center `(i + 0.5) / (n + 1)`. -/
def texCoord (n : ℕ) (i : Fin (n + 1)) : ℝ :=
  ((i : ℝ) + 0.5) / ((n : ℝ) + 1)

/-!  ### Wave propagation (the `updateMaterial` fragment shader)

```
vec4 info = texture2D(textureMap, coord);
float average = ( left.r + down.r + right.r + up.r ) * 0.25;
info.g += (average - info.r) * 2.0;
info.g *= 0.995;
info.r += info.g;
```
with `delta = (1/width, 1/height)`, so `coord ± dx`, `coord ± dy` are the
four axis neighbors, clamped at the field edges.  -/

/-- The `updateMaterial` fragment program for the texel at `(i, j)`. -/
def updateTexel (W H : ℕ) (f : Field W H) (i : Fin (W + 1)) (j : Fin (H + 1)) :
    Texel :=
  let info := f i j
  let average :=
    ((f (clampIdx W ((i : ℤ) - 1)) j).r +
     (f i (clampIdx H ((j : ℤ) - 1))).r +
     (f (clampIdx W ((i : ℤ) + 1)) j).r +
     (f i (clampIdx H ((j : ℤ) + 1))).r) * 0.25
  let g1 := info.g + (average - info.r) * 2.0
  let g2 := g1 * 0.995
  let r1 := info.r + g2
  { r := r1, g := g2, b := info.b, a := info.a }

/-- `Water.stepSimulation`: one full-grid wave-propagation pass, reading the
current buffer and producing the next buffer. -/
def stepSimulation (W H : ℕ) (f : Field W H) : Field W H :=
  fun i j => updateTexel W H f i j

/-- Total absolute velocity of a field: the sum over all texels of the
absolute value of the velocity channel `g`. -/
def totalAbsVel (W H : ℕ) (f : Field W H) : ℝ :=
  ∑ i : Fin (W + 1), ∑ j : Fin (H + 1), |(f i j).g|

/-!  ### Drop impulse (the `dropMaterial` fragment shader)

```
float drop = max(0.0, 1.0 - length(center * 0.5 + 0.5 - coord) / radius);
drop = 0.5 - cos(drop * PI) * 0.5;
info.r += drop * strength;
```
`center` is given in `[-1, 1]` coordinates and mapped to the `[0, 1]`
texture space before measuring the distance to the fragment.  -/

/-- The `dropMaterial` fragment program at texture coordinate `coord`,
for a drop of the given (normalized) `center`, `radius` and `strength`. -/
def dropTexel (center : ℝ × ℝ) (radius strength : ℝ) (coord : ℝ × ℝ)
    (info : Texel) : Texel :=
  let dist := Real.sqrt ((center.1 * 0.5 + 0.5 - coord.1) ^ 2 +
                         (center.2 * 0.5 + 0.5 - coord.2) ^ 2)
  let drop0 := max 0 (1 - dist / radius)
  let drop := 0.5 - Real.cos (drop0 * Real.pi) * 0.5
  { info with r := info.r + drop * strength }

/-- The drop pass over the whole field (each texel is sampled at its
center coordinate). -/
def dropStep (W H : ℕ) (center : ℝ × ℝ) (radius strength : ℝ)
    (f : Field W H) : Field W H :=
  fun i j => dropTexel center radius strength (texCoord W i, texCoord H j) (f i j)

/-- `Water.addDrop`: converts the world-space drop position and radius
into normalized field coordinates and runs the drop pass. -/
def addDrop (W H : ℕ) (poolWidth poolLength : ℝ) (x y radius strength : ℝ)
    (f : Field W H) : Field W H :=
  dropStep W H (x / (poolWidth / 2), y / (poolLength / 2))
    (radius / ((poolWidth + poolLength) / 4)) strength f

/-!  ### Sphere displacement (the `sphereMaterial` fragment shader)

```
float volumeInSphere(vec3 center) {
  vec3 toCenter = vec3(coord.x * 2.0 - 1.0, 0.0, coord.y * 2.0 - 1.0) - center;
  float t = length(toCenter) / radius;
  float dy = exp(-pow(t * 1.5, 6.0));
  float ymin = min(0.0, center.y - dy);
  float ymax = min(max(0.0, center.y + dy), ymin + 2.0 * dy);
  return (ymax - ymin) * 0.1;
}
info.r += volumeInSphere(oldCenter);
info.r -= volumeInSphere(newCenter);
```  -/

/-- A 3-vector of reals (GLSL `vec3`). -/
structure Vec3 where
  x : ℝ
  y : ℝ
  z : ℝ

/-- GLSL `length` of a `vec3`. -/
def vlength (v : Vec3) : ℝ :=
  Real.sqrt (v.x ^ 2 + v.y ^ 2 + v.z ^ 2)

/-- The `volumeInSphere` helper of the sphere shader, for the fragment at
texture coordinate `coord` and the given (normalized) sphere `center` and
`radius`. -/
def volumeInSphere (radius : ℝ) (coord : ℝ × ℝ) (center : Vec3) : ℝ :=
  let toCenter : Vec3 := ⟨coord.1 * 2 - 1 - center.x, 0 - center.y,
                          coord.2 * 2 - 1 - center.z⟩
  let t := vlength toCenter / radius
  let dy := Real.exp (-(t * 1.5) ^ 6)
  let ymin := min 0 (center.y - dy)
  let ymax := min (max 0 (center.y + dy)) (ymin + 2 * dy)
  (ymax - ymin) * 0.1

/-- The `sphereMaterial` fragment program: the height channel gains the
volume the sphere vacated and loses the volume it now occupies. -/
def sphereTexel (oldCenter newCenter : Vec3) (radius : ℝ) (coord : ℝ × ℝ)
    (info : Texel) : Texel :=
  let r1 := info.r + volumeInSphere radius coord oldCenter
  let r2 := r1 - volumeInSphere radius coord newCenter
  { info with r := r2 }

/-- The sphere-displacement pass over the whole field. -/
def sphereStep (W H : ℕ) (oldCenter newCenter : Vec3) (radius : ℝ)
    (f : Field W H) : Field W H :=
  fun i j => sphereTexel oldCenter newCenter radius
    (texCoord W i, texCoord H j) (f i j)

/-- `Water.moveSphere`: normalizes the two world-space sphere centers and
the radius by the pool dimensions, then runs the sphere pass.  Note the
method takes no strength parameter. -/
def moveSphere (W H : ℕ) (poolWidth poolLength : ℝ)
    (oldCenter newCenter : Vec3) (radius : ℝ) (f : Field W H) : Field W H :=
  let scaleX := poolWidth / 2
  let scaleZ := poolLength / 2
  let nOld : Vec3 := ⟨oldCenter.x / scaleX, oldCenter.y, oldCenter.z / scaleZ⟩
  let nNew : Vec3 := ⟨newCenter.x / scaleX, newCenter.y, newCenter.z / scaleZ⟩
  let nRadius := radius / ((scaleX + scaleZ) / 2)
  sphereStep W H nOld nNew nRadius f

/-!  ### Caustic accumulation buffer clear (`Renderer.updateCaustics`)

```
renderer.setRenderTarget(this.causticTex);
renderer.setClearColor(0x000000, 0);
renderer.clear();
```
The caustic texture channels are `(intensity, shadow, -, -)`; `clear()`
fills every texel with the clear color.  -/

/-- The RGBA value produced by `setClearColor(hex, alpha)`: the three
bytes of the hex color scaled to `[0, 1]`, with the given alpha. -/
def setClearColorRGBA (hex : ℕ) (alpha : ℝ) : Texel :=
  { r := ((hex / 65536) % 256 : ℕ) / 255,
    g := ((hex / 256) % 256 : ℕ) / 255,
    b := ((hex % 256 : ℕ) : ℝ) / 255,
    a := alpha }

/-- The caustic accumulation buffer right after the clear in
`Renderer.updateCaustics`, before the caustics scene is rasterized:
every texel holds `setClearColor(0x000000, 0)`. -/
def causticClearedBuffer (W H : ℕ) : Field W H :=
  fun _ _ => setClearColorRGBA 0x000000 0

/-!  ### Surface compositor tail (the `waterMaterial` fragment shader)

```
vec3 reflectedColor = getSurfaceRayColor(position, reflectedRay, abovewaterColor);
vec3 refractedColor = vec3(0.0);
if (length(refractedRay) > 0.001) {
   refractedColor = getSurfaceRayColor(position, refractedRay, abovewaterColor);
   ...
   refractedColor = mix(refractedColor, duckSample.rgb, duckSample.a);
} else {
   fresnel = 1.0;
}
gl_FragColor = vec4(mix(refractedColor, reflectedColor, fresnel), 1.0);
```
`getSurfaceRayColor` ray-traces walls, floor and sky; we model it as an
oracle function from rays to colors, and the screen-space duck-refraction
texture fetch as an oracle RGBA sample.  -/

/-- GLSL `mix(x, y, a) = x * (1 - a) + y * a`, componentwise on `vec3`. -/
def mixV3 (x y : Vec3) (t : ℝ) : Vec3 :=
  ⟨x.x * (1 - t) + y.x * t, x.y * (1 - t) + y.y * t, x.z * (1 - t) + y.z * t⟩

/-- The final blend of the `waterMaterial` fragment shader.
`surfaceRayColor` abstracts `getSurfaceRayColor` at the current fragment
position, and `duckSample` abstracts the screen-space refraction texture
fetch (rgb and alpha). -/
def waterFragColor (surfaceRayColor : Vec3 → Vec3)
    (reflectedRay refractedRay : Vec3) (fresnel : ℝ)
    (duckSample : Vec3 × ℝ) : Vec3 :=
  let reflectedColor := surfaceRayColor reflectedRay
  if 0.001 < vlength refractedRay then
    let refractedColor0 := surfaceRayColor refractedRay
    let refractedColor := mixV3 refractedColor0 duckSample.1 duckSample.2
    mixV3 refractedColor reflectedColor fresnel
  else
    mixV3 ⟨0, 0, 0⟩ reflectedColor 1

/-!  ## Theorems -/

/-- Claim C1: one wave-propagation step samples the four clamped axis-neighbor
heights from the current buffer, computes their mean `avg`, and writes the new
velocity `(v + (avg - h) * 2.0) * 0.995` (stiffness 2.0 then damping 0.995, in
that order) and the new height `h + v_new`. -/
theorem wave_step_update_rule (W H : ℕ) (f : Field W H)
    (i : Fin (W + 1)) (j : Fin (H + 1)) :
    (stepSimulation W H f i j).g =
      ((f i j).g +
        ((((f (clampIdx W ((i : ℤ) - 1)) j).r +
           (f (clampIdx W ((i : ℤ) + 1)) j).r +
           (f i (clampIdx H ((j : ℤ) - 1))).r +
           (f i (clampIdx H ((j : ℤ) + 1))).r) / 4) - (f i j).r) * 2.0) * 0.995
    ∧ (stepSimulation W H f i j).r =
        (f i j).r + (stepSimulation W H f i j).g := by
  unfold stepSimulation updateTexel
  constructor
  · ring
  · rfl

/-- Claim C6: starting from the all-zero field, any number of
wave-propagation steps with no intervening impulses yields the all-zero
field again (the all-zero field is a fixed point of the step). -/
theorem zero_field_invariant (W H n : ℕ) :
    (stepSimulation W H)^[n] (zeroField W H) = zeroField W H := by
  induction n with
  | zero => rfl
  | succ n ih =>
    rw [Function.iterate_succ_apply', ih]
    funext i j
    show updateTexel W H (zeroField W H) i j = _
    unfold updateTexel zeroField
    norm_num

/-- Claim C10: any number of wave-propagation steps leaves the third and
fourth channels (`normalX`, `normalZ`) of every texel unchanged: the update
shader writes only the height and velocity channels. -/
theorem wave_step_preserves_normals (W H : ℕ) (n : ℕ) (f : Field W H)
    (i : Fin (W + 1)) (j : Fin (H + 1)) :
    (((stepSimulation W H)^[n] f) i j).b = (f i j).b ∧
    (((stepSimulation W H)^[n] f) i j).a = (f i j).a := by
  induction n generalizing f with
  | zero => exact ⟨rfl, rfl⟩
  | succ n ih =>
    rw [Function.iterate_succ_apply]
    refine ⟨(ih (stepSimulation W H f)).1.trans ?_,
            (ih (stepSimulation W H f)).2.trans ?_⟩ <;> rfl

/-- Claim C5: `moveSphere(A, B, r)` followed by `moveSphere(B, A, r)` returns
every channel of every texel to its pre-displacement value: in exact
arithmetic the per-texel contributions `volumeInSphere(A) - volumeInSphere(B)`
and `volumeInSphere(B) - volumeInSphere(A)` cancel exactly. -/
theorem sphere_displacement_roundtrip (W H : ℕ) (poolWidth poolLength : ℝ)
    (A B : Vec3) (radius : ℝ) (f : Field W H) :
    moveSphere W H poolWidth poolLength B A radius
      (moveSphere W H poolWidth poolLength A B radius f) = f := by
  funext i j
  show sphereTexel _ _ _ _ (sphereTexel _ _ _ _ (f i j)) = f i j
  unfold sphereTexel
  rw [Texel.ext_iff']
  refine ⟨by ring, rfl, rfl, rfl⟩

/-- `mix(vec3(0), c, 1) = c`. -/
theorem mixV3_zero_one (c : Vec3) : mixV3 ⟨0, 0, 0⟩ c 1 = c := by
  rcases c with ⟨cx, cy, cz⟩
  unfold mixV3
  norm_num

/-- Claim C9: in the surface compositor, a fragment whose refracted ray is
degenerate (length at most 0.001, the total-internal-reflection test) gets
Fresnel weight forced to 1 and its color is exactly the reflected-ray color;
any other fragment gets the mix of the refracted-ray color (with the
screen-space refraction overlay applied) and the reflected-ray color,
weighted by the Fresnel term. -/
theorem water_fresnel_blend (surfaceRayColor : Vec3 → Vec3)
    (reflectedRay refractedRay : Vec3) (fresnel : ℝ) (duckSample : Vec3 × ℝ) :
    (vlength refractedRay ≤ 0.001 →
      waterFragColor surfaceRayColor reflectedRay refractedRay fresnel duckSample =
        surfaceRayColor reflectedRay)
    ∧ (0.001 < vlength refractedRay →
      waterFragColor surfaceRayColor reflectedRay refractedRay fresnel duckSample =
        mixV3 (mixV3 (surfaceRayColor refractedRay) duckSample.1 duckSample.2)
          (surfaceRayColor reflectedRay) fresnel) := by
  constructor
  · intro h
    unfold waterFragColor
    rw [if_neg (not_lt.mpr h)]
    exact mixV3_zero_one _
  · intro h
    unfold waterFragColor
    rw [if_pos h]

/-- Witness for C9: with a zero refracted ray (degenerate, length 0 ≤ 0.001)
the compositor returns the reflected-ray color. -/
theorem water_fresnel_blend_witness :
    vlength ⟨0, 0, 0⟩ ≤ 0.001 ∧
    waterFragColor (fun _ => ⟨1, 2, 3⟩) ⟨0, 0, 1⟩ ⟨0, 0, 0⟩ 0.5 (⟨0, 0, 0⟩, 0) =
      ⟨1, 2, 3⟩ := by
  have h : vlength ⟨0, 0, 0⟩ ≤ 0.001 := by
    unfold vlength
    norm_num
  exact ⟨h, (water_fresnel_blend (fun _ => ⟨1, 2, 3⟩) ⟨0, 0, 1⟩ ⟨0, 0, 0⟩ 0.5
    (⟨0, 0, 0⟩, 0)).1 h⟩

/-- Claim C7: for a positive radius, the drop pass adds exactly
`strength * (0.5 - 0.5 * cos (pi * clamp (1 - d) 0 1))` to the height
channel, where `d` is the distance from the mapped drop center to the texel
over the radius; the other three channels are unchanged, and texels at
distance at least `radius` from the center are left with their height
unchanged. -/
theorem drop_bump_formula (W H : ℕ) (center : ℝ × ℝ) (radius strength : ℝ)
    (f : Field W H) (i : Fin (W + 1)) (j : Fin (H + 1)) (hr : 0 < radius) :
    (dropStep W H center radius strength f i j).r =
      (f i j).r + strength * (0.5 - 0.5 * Real.cos (Real.pi *
        (min (max (1 - Real.sqrt ((center.1 * 0.5 + 0.5 - texCoord W i) ^ 2 +
          (center.2 * 0.5 + 0.5 - texCoord H j) ^ 2) / radius) 0) 1)))
    ∧ (dropStep W H center radius strength f i j).g = (f i j).g
    ∧ (dropStep W H center radius strength f i j).b = (f i j).b
    ∧ (dropStep W H center radius strength f i j).a = (f i j).a
    ∧ (radius ≤ Real.sqrt ((center.1 * 0.5 + 0.5 - texCoord W i) ^ 2 +
          (center.2 * 0.5 + 0.5 - texCoord H j) ^ 2) →
        (dropStep W H center radius strength f i j).r = (f i j).r) := by
  have hD : 0 ≤ Real.sqrt ((center.1 * 0.5 + 0.5 - texCoord W i) ^ 2 +
      (center.2 * 0.5 + 0.5 - texCoord H j) ^ 2) := Real.sqrt_nonneg _
  simp only [dropStep, dropTexel]
  have hd0 : 0 ≤ Real.sqrt ((center.1 * 0.5 + 0.5 - texCoord W i) ^ 2 +
      (center.2 * 0.5 + 0.5 - texCoord H j) ^ 2) / radius :=
    div_nonneg hD hr.le
  have hclamp : min (max (1 - Real.sqrt ((center.1 * 0.5 + 0.5 - texCoord W i) ^ 2 +
      (center.2 * 0.5 + 0.5 - texCoord H j) ^ 2) / radius) 0) 1 =
      max 0 (1 - Real.sqrt ((center.1 * 0.5 + 0.5 - texCoord W i) ^ 2 +
      (center.2 * 0.5 + 0.5 - texCoord H j) ^ 2) / radius) := by
    rw [min_eq_left (max_le (by linarith) zero_le_one)]
    exact max_comm _ _
  refine ⟨?_, by trivial, by trivial, by trivial, ?_⟩
  · rw [hclamp, mul_comm Real.pi]
    ring
  · intro hge
    have h1 : 1 ≤ Real.sqrt ((center.1 * 0.5 + 0.5 - texCoord W i) ^ 2 +
        (center.2 * 0.5 + 0.5 - texCoord H j) ^ 2) / radius :=
      (one_le_div hr).mpr hge
    rw [max_eq_left (by linarith), zero_mul, Real.cos_zero]
    ring

/-- Witness for C7: a unit-radius drop leaves the velocity channel of the
single texel of a 1-by-1 field unchanged. -/
theorem drop_bump_formula_witness :
    (0 : ℝ) < 1 ∧
    (dropStep 0 0 (0, 0) 1 1 (zeroField 0 0) 0 0).g = (zeroField 0 0 0 0).g :=
  ⟨one_pos, (drop_bump_formula 0 0 (0, 0) 1 1 (zeroField 0 0) 0 0 one_pos).2.1⟩

/-- Counterexample for C3: a drop with the negative radius `-1`, centered on
the single texel of a 1-by-1 zero field, changes that texel's height channel
(from 0 to `strength`), so a negative-radius impulse is not a no-op. -/
theorem drop_negative_radius_counterexample :
    (dropStep 0 0 (0, 0) (-1) 1 (zeroField 0 0) 0 0).r ≠ (zeroField 0 0 0 0).r := by
  have hcoord : texCoord 0 (0 : Fin 1) = 0.5 := by
    unfold texCoord
    norm_num
  simp only [dropStep, dropTexel, zeroField, hcoord]
  rw [show ((0 : ℝ) * 0.5 + 0.5 - 0.5) ^ 2 + ((0 : ℝ) * 0.5 + 0.5 - 0.5) ^ 2 = 0
    by norm_num]
  rw [Real.sqrt_zero]
  norm_num [Real.cos_pi]

/-- Claim C3 amended: a drop whose radius is negative is not guarded and is
not a no-op: the raised-cosine formula is applied unconditionally, and a
texel located exactly at the mapped drop center has its height channel
incremented by exactly `strength`; velocity and normal channels are
unchanged. -/
theorem drop_negative_radius_center_effect (W H : ℕ) (center : ℝ × ℝ)
    (radius strength : ℝ) (f : Field W H) (i : Fin (W + 1)) (j : Fin (H + 1))
    (hr : radius < 0)
    (hx : center.1 * 0.5 + 0.5 = texCoord W i)
    (hy : center.2 * 0.5 + 0.5 = texCoord H j) :
    (dropStep W H center radius strength f i j).r = (f i j).r + strength
    ∧ (dropStep W H center radius strength f i j).g = (f i j).g
    ∧ (dropStep W H center radius strength f i j).b = (f i j).b
    ∧ (dropStep W H center radius strength f i j).a = (f i j).a := by
  simp only [dropStep, dropTexel]
  refine ⟨?_, by trivial, by trivial, by trivial⟩
  rw [hx, hy]
  rw [show (texCoord W i - texCoord W i) ^ 2 + (texCoord H j - texCoord H j) ^ 2
      = 0 by ring]
  rw [Real.sqrt_zero, zero_div]
  norm_num [Real.cos_pi]

/-- Witness for the amended C3: a drop of radius `-1` and strength 2 centered
on the single texel of a 1-by-1 zero field raises its height by exactly 2. -/
theorem drop_negative_radius_center_effect_witness :
    (-1 : ℝ) < 0 ∧
    (dropStep 0 0 (0, 0) (-1) 2 (zeroField 0 0) 0 0).r =
      (zeroField 0 0 0 0).r + 2 := by
  have hx : ((0 : ℝ), (0 : ℝ)).1 * 0.5 + 0.5 = texCoord 0 (0 : Fin 1) := by
    unfold texCoord
    norm_num
  have hy : ((0 : ℝ), (0 : ℝ)).2 * 0.5 + 0.5 = texCoord 0 (0 : Fin 1) := by
    unfold texCoord
    norm_num
  exact ⟨by norm_num,
    (drop_negative_radius_center_effect 0 0 (0, 0) (-1) 2 (zeroField 0 0) 0 0
      (by norm_num) hx hy).1⟩

/-- Evaluation of `volumeInSphere` for a sphere center high above the water
plane (`1 ≤ center.y`): the bounded-falloff column height is `2 * dy * 0.1`
with `dy = exp (-(L / radius * 1.5) ^ 6)` for `L` the distance from the texel
column to the center. -/
theorem volumeInSphere_eval (radius : ℝ) (coord : ℝ × ℝ) (c : Vec3) (L : ℝ)
    (hL : vlength ⟨coord.1 * 2 - 1 - c.x, 0 - c.y, coord.2 * 2 - 1 - c.z⟩ = L)
    (hcy : 1 ≤ c.y) :
    volumeInSphere radius coord c =
      2 * Real.exp (-(L / radius * 1.5) ^ 6) * 0.1 := by
  simp only [volumeInSphere]
  rw [hL]
  set dy := Real.exp (-(L / radius * 1.5) ^ 6) with hdy
  have hdy1 : dy ≤ 1 := by
    rw [hdy, show (1 : ℝ) = Real.exp 0 from Real.exp_zero.symm]
    exact Real.exp_le_exp.mpr (neg_nonpos.mpr (by positivity))
  have hdy0 : 0 < dy := Real.exp_pos _
  have hymin : min 0 (c.y - dy) = 0 := min_eq_left (by linarith)
  have hymax : min (max 0 (c.y + dy)) (0 + 2 * dy) = 0 + 2 * dy := by
    rw [max_eq_right (by linarith)]
    exact min_eq_right (by linarith)
  rw [hymin, hymax]
  ring

/-- Counterexample for C2: the sphere-displacement pass adds
`volumeInSphere(old) - volumeInSphere(new)` with no strength factor, so for
a concrete input where that difference is nonzero the height change differs
from `strength * (volumeInSphere(old) - volumeInSphere(new))` for the
strength value 2. -/
theorem sphere_strength_counterexample :
    (sphereStep 0 0 ⟨0, 10, 0⟩ ⟨3, 10, 0⟩ 15 (zeroField 0 0) 0 0).r -
      (zeroField 0 0 0 0).r ≠
    2 * (volumeInSphere 15 (texCoord 0 0, texCoord 0 0) ⟨0, 10, 0⟩ -
         volumeInSphere 15 (texCoord 0 0, texCoord 0 0) ⟨3, 10, 0⟩) := by
  have hcoord : texCoord 0 (0 : Fin 1) = 0.5 := by
    unfold texCoord
    norm_num
  have hlenA : vlength ⟨(0.5 : ℝ) * 2 - 1 - 0, 0 - 10, (0.5 : ℝ) * 2 - 1 - 0⟩
      = 10 := by
    unfold vlength
    rw [show ((0.5 : ℝ) * 2 - 1 - 0) ^ 2 + ((0 : ℝ) - 10) ^ 2 +
      ((0.5 : ℝ) * 2 - 1 - 0) ^ 2 = 10 ^ 2 by norm_num]
    exact Real.sqrt_sq (by norm_num)
  have hlenB : vlength ⟨(0.5 : ℝ) * 2 - 1 - 3, 0 - 10, (0.5 : ℝ) * 2 - 1 - 0⟩
      = Real.sqrt 109 := by
    unfold vlength
    rw [show ((0.5 : ℝ) * 2 - 1 - 3) ^ 2 + ((0 : ℝ) - 10) ^ 2 +
      ((0.5 : ℝ) * 2 - 1 - 0) ^ 2 = 109 by norm_num]
  have hVA : volumeInSphere 15 ((0.5 : ℝ), (0.5 : ℝ)) ⟨0, 10, 0⟩ =
      2 * Real.exp (-1) * 0.1 := by
    rw [volumeInSphere_eval 15 ((0.5 : ℝ), (0.5 : ℝ)) ⟨0, 10, 0⟩ 10 hlenA
      (by norm_num)]
    norm_num
  have hexp : (Real.sqrt 109 / 15 * 1.5) ^ 6 = 1295029 / 1000000 := by
    have h2 : Real.sqrt 109 ^ 2 = 109 := Real.sq_sqrt (by norm_num)
    rw [show (Real.sqrt 109 / 15 * 1.5) ^ 6 = (Real.sqrt 109 ^ 2) ^ 3 / 10 ^ 6
      by ring, h2]
    norm_num
  have hVB : volumeInSphere 15 ((0.5 : ℝ), (0.5 : ℝ)) ⟨3, 10, 0⟩ =
      2 * Real.exp (-(1295029 / 1000000)) * 0.1 := by
    rw [volumeInSphere_eval 15 ((0.5 : ℝ), (0.5 : ℝ)) ⟨3, 10, 0⟩ (Real.sqrt 109)
      hlenB (by norm_num), hexp]
  have hlt : Real.exp (-(1295029 / 1000000 : ℝ)) < Real.exp (-1) :=
    Real.exp_lt_exp.mpr (by norm_num)
  simp only [sphereStep, sphereTexel, zeroField, hcoord]
  rw [hVA, hVB]
  intro h
  linarith

/-- Claim C2 amended: the sphere-displacement pass changes the height channel
by exactly `volumeInSphere(oldCenter) - volumeInSphere(newCenter)` (amplitude
constant 0.1 inside `volumeInSphere`), with no strength factor: `moveSphere`
takes no strength parameter and the shader applies none.  The other channels
are unchanged. -/
theorem sphere_displacement_rule (W H : ℕ) (oldCenter newCenter : Vec3)
    (radius : ℝ) (f : Field W H) (i : Fin (W + 1)) (j : Fin (H + 1)) :
    (sphereStep W H oldCenter newCenter radius f i j).r =
      (f i j).r + (volumeInSphere radius (texCoord W i, texCoord H j) oldCenter -
        volumeInSphere radius (texCoord W i, texCoord H j) newCenter)
    ∧ (sphereStep W H oldCenter newCenter radius f i j).g = (f i j).g
    ∧ (sphereStep W H oldCenter newCenter radius f i j).b = (f i j).b
    ∧ (sphereStep W H oldCenter newCenter radius f i j).a = (f i j).a := by
  simp only [sphereStep, sphereTexel]
  refine ⟨by ring, by trivial, by trivial, by trivial⟩

/-- Counterexample for C4: the caustic accumulation buffer is cleared with
`setClearColor(0x000000, 0)`, so right after the clear its intensity and
shadow channels are 0, not the claimed neutral baseline 1. -/
theorem caustic_clear_counterexample :
    ¬ ((causticClearedBuffer 0 0 0 0).r = 1 ∧
       (causticClearedBuffer 0 0 0 0).g = 1) := by
  intro h
  have hr0 : (causticClearedBuffer 0 0 0 0).r = 0 := by
    norm_num [causticClearedBuffer, setClearColorRGBA]
  rw [hr0] at h
  exact absurd h.1 (by norm_num)

/-- Claim C4 amended: before each tick's caustic rasterization the
accumulation buffer is cleared to transparent black: every texel has
intensity 0, shadow 0 and both remaining channels 0; contributions are then
blended on top of that zero baseline. -/
theorem caustic_clear_zero_baseline (W H : ℕ) (i : Fin (W + 1))
    (j : Fin (H + 1)) :
    causticClearedBuffer W H i j = ⟨0, 0, 0, 0⟩ := by
  norm_num [causticClearedBuffer, setClearColorRGBA]

/-- A field with an impulse-only state (a height bump, zero velocity
everywhere) on a 2-by-1 grid, as left by a drop. -/
def impulseField : Field 1 0 :=
  fun i _ => if (i : ℕ) = 0 then ⟨1, 0, 0, 0⟩ else ⟨0, 0, 0, 0⟩

/-- Counterexample for C8: on an impulse-only field (nonzero height, zero
velocity) the total absolute velocity is 0 before the step and 0.995 after
it, so it does not decay geometrically with ratio 0.995 per step. -/
theorem velocity_decay_counterexample :
    totalAbsVel 1 0 (stepSimulation 1 0 impulseField) ≠
      0.995 * totalAbsVel 1 0 impulseField := by
  have h0 : totalAbsVel 1 0 impulseField = 0 := by
    rw [totalAbsVel, Fin.sum_univ_two, Fin.sum_univ_one, Fin.sum_univ_one]
    norm_num [impulseField]
  have hA : (stepSimulation 1 0 impulseField 0 0).g = -0.4975 := by
    norm_num [stepSimulation, updateTexel, impulseField, clampIdx]
  have hB : (stepSimulation 1 0 impulseField 1 0).g = 0.4975 := by
    norm_num [stepSimulation, updateTexel, impulseField, clampIdx]
  have h1 : totalAbsVel 1 0 (stepSimulation 1 0 impulseField) = 0.995 := by
    rw [totalAbsVel, Fin.sum_univ_two]
    rw [Fin.sum_univ_one, Fin.sum_univ_one]
    rw [hA, hB]
    rw [abs_of_nonpos (by norm_num), abs_of_nonneg (by norm_num)]
    norm_num
  rw [h0, h1]
  norm_num

/-- One propagation step on a spatially uniform field produces the uniform
field with velocity damped by exactly 0.995 and height advanced by the new
velocity (the neighbor average equals the local height, so the coupling term
vanishes). -/
theorem step_uniform (W H : ℕ) (f : Field W H) (t : Texel)
    (hf : ∀ i j, f i j = t) (i : Fin (W + 1)) (j : Fin (H + 1)) :
    stepSimulation W H f i j =
      ⟨t.r + t.g * 0.995, t.g * 0.995, t.b, t.a⟩ := by
  simp only [stepSimulation, updateTexel, hf]
  rw [Texel.ext_iff']
  refine ⟨by ring, by ring, rfl, rfl⟩

/-- Claim C8 amended: geometric velocity decay with ratio exactly 0.995 per
step holds on spatially uniform fields, where the neighbor-coupling term
vanishes: after `n` steps the total absolute velocity is `0.995 ^ n` times
the original.  (On non-uniform fields the coupling term `2 * (avg - h)` also
feeds the velocity, and the counterexample shows the ratio-0.995 law fails.) -/
theorem uniform_field_velocity_decay (W H : ℕ) (f : Field W H) (t : Texel)
    (hf : ∀ i j, f i j = t) (n : ℕ) :
    totalAbsVel W H ((stepSimulation W H)^[n] f) =
      0.995 ^ n * totalAbsVel W H f := by
  induction n generalizing f t with
  | zero => simp
  | succ n ih =>
    rw [Function.iterate_succ_apply]
    rw [ih (stepSimulation W H f) ⟨t.r + t.g * 0.995, t.g * 0.995, t.b, t.a⟩
      (step_uniform W H f t hf)]
    have htot : totalAbsVel W H (stepSimulation W H f) =
        0.995 * totalAbsVel W H f := by
      unfold totalAbsVel
      rw [Finset.mul_sum]
      refine Finset.sum_congr rfl (fun i _ => ?_)
      rw [Finset.mul_sum]
      refine Finset.sum_congr rfl (fun j _ => ?_)
      rw [step_uniform W H f t hf i j, hf i j]
      show |t.g * 0.995| = 0.995 * |t.g|
      rw [abs_mul, abs_of_pos (by norm_num : (0 : ℝ) < 0.995)]
      ring
    rw [htot]
    ring

/-- Witness for the amended C8: one step on the uniform 1-by-1 field with
velocity 1 scales total absolute velocity by exactly 0.995. -/
theorem uniform_field_velocity_decay_witness :
    totalAbsVel 0 0 ((stepSimulation 0 0)^[1]
      (fun _ _ => (⟨0, 1, 0, 0⟩ : Texel))) =
    0.995 ^ 1 * totalAbsVel 0 0 (fun _ _ => (⟨0, 1, 0, 0⟩ : Texel)) :=
  uniform_field_velocity_decay 0 0 (fun _ _ => ⟨0, 1, 0, 0⟩) ⟨0, 1, 0, 0⟩
    (fun _ _ => rfl) 1

end WaterSim
